import Mathlib

/-!
Verification development for a small Rust library (`rust-format`) that
invokes the external `rustfmt` tool on a source file and classifies the
outcome.  The OS-level effects (toolchain lookup, process spawn, wait)
are modelled by an explicit oracle record `OS`; `format_file` is embedded
as a pure function of the oracle and the target path that also returns
the trace of OS interactions it performed.
-/

/-- A textual I/O stream (source: `enum IoStream`, src/lib.rs lines 4-11). -/
inductive IoStream where
  /-- The stream does not contain valid UTF-8. -/
  | invalidUtf8 : IoStream
  /-- The text. -/
  | text (string : String) : IoStream
deriving DecidableEq

/-- Model of `impl Display for IoStream` (src/lib.rs lines 13-20): the
rendered string of an `IoStream` value. -/
def IoStream.display : IoStream → String
  | IoStream.invalidUtf8 => "(Invalid UTF-8)"
  | IoStream.text string => string

/-- Bytes are natural numbers; a real byte is below 256, and every list
entry at or above 256 fails every branch of the UTF-8 decoder. -/
abbrev Bytes := List Nat

/-- Is `b` a UTF-8 continuation byte (`0x80..=0xBF`)? -/
def isUtf8Cont (b : Nat) : Bool := 0x80 ≤ b && b < 0xC0

/-- Decode the tail of a two-byte UTF-8 sequence with lead byte `b`:
on success, the scalar value and the remaining bytes. -/
def utf8Cont2 (b : Nat) : Bytes → Option (Nat × Bytes)
  | b₁ :: rest =>
    if isUtf8Cont b₁ then some (0x40 * (b - 0xC0) + (b₁ - 0x80), rest) else none
  | [] => none

/-- Admissible first continuation byte `b₁` of a three-byte sequence with
lead byte `b`: range-restricted for lead `0xE0` (no overlong forms) and
lead `0xED` (no surrogates). -/
def utf8Cont3Fst (b b₁ : Nat) : Bool :=
  if b = 0xE0 then 0xA0 ≤ b₁ && b₁ < 0xC0
  else if b = 0xED then 0x80 ≤ b₁ && b₁ < 0xA0
  else isUtf8Cont b₁

/-- Admissible first continuation byte `b₁` of a four-byte sequence with
lead byte `b`: range-restricted for lead `0xF0` (no overlong forms) and
lead `0xF4` (no values above `U+10FFFF`). -/
def utf8Cont4Fst (b b₁ : Nat) : Bool :=
  if b = 0xF0 then 0x90 ≤ b₁ && b₁ < 0xC0
  else if b = 0xF4 then 0x80 ≤ b₁ && b₁ < 0x90
  else isUtf8Cont b₁

/-- Decode the tail of a three-byte UTF-8 sequence with lead byte `b`. -/
def utf8Cont3 (b : Nat) : Bytes → Option (Nat × Bytes)
  | b₁ :: b₂ :: rest =>
    if utf8Cont3Fst b b₁ && isUtf8Cont b₂ then
      some (0x1000 * (b - 0xE0) + 0x40 * (b₁ - 0x80) + (b₂ - 0x80), rest)
    else none
  | _ => none

/-- Decode the tail of a four-byte UTF-8 sequence with lead byte `b`. -/
def utf8Cont4 (b : Nat) : Bytes → Option (Nat × Bytes)
  | b₁ :: b₂ :: b₃ :: rest =>
    if utf8Cont4Fst b b₁ && isUtf8Cont b₂ && isUtf8Cont b₃ then
      some (0x40000 * (b - 0xF0) + 0x1000 * (b₁ - 0x80) + 0x40 * (b₂ - 0x80) + (b₃ - 0x80),
        rest)
    else none
  | _ => none

/-- Decode one UTF-8 encoded scalar value whose lead byte is `b` and whose
remaining input is `bs`: on success, the scalar value and the bytes left
over.  Lead bytes `0x80..=0xC1` (continuations and overlong two-byte
leads) and `0xF5..` (out of range) are rejected, as in Rust. -/
def utf8DecodeStep (b : Nat) (bs : Bytes) : Option (Nat × Bytes) :=
  if b < 0x80 then some (b, bs)
  else if b < 0xC2 then none
  else if b < 0xE0 then utf8Cont2 b bs
  else if b < 0xF0 then utf8Cont3 b bs
  else if b < 0xF5 then utf8Cont4 b bs
  else none

/-- Fuel-driven decoding loop: decode scalar values until the input is
exhausted.  Each step consumes at least one byte, so fuel equal to the
length of the input always suffices. -/
def utf8DecodeLoop : Nat → Bytes → Option (List Nat)
  | _, [] => some []
  | 0, _ :: _ => none
  | fuel + 1, b :: bs =>
    match utf8DecodeStep b bs with
    | none => none
    | some (c, rest) => (utf8DecodeLoop fuel rest).map (fun cs => c :: cs)

/-- Model of the UTF-8 validation/decoding performed by Rust
`String::from_utf8`: decodes a byte list to the list of Unicode scalar
values, or `none` when the bytes are not valid UTF-8 (overlong forms,
surrogates and out-of-range leads all rejected, as in Rust). -/
def utf8DecodeCore (l : Bytes) : Option (List Nat) :=
  utf8DecodeLoop l.length l

/-- Is `c` a Unicode scalar value (code point that is not a surrogate)? -/
def IsScalarValue (c : Nat) : Bool :=
  c < 0xD800 || (0xE000 ≤ c && c < 0x110000)

/-- The UTF-8 encoding of a single scalar value, from the definition of
UTF-8: 1-4 bytes depending on magnitude. -/
def utf8EncodeChar (c : Nat) : Bytes :=
  if c < 0x80 then [c]
  else if c < 0x800 then
    [0xC0 + c / 0x40, 0x80 + c % 0x40]
  else if c < 0x10000 then
    [0xE0 + c / 0x1000, 0x80 + c / 0x40 % 0x40, 0x80 + c % 0x40]
  else
    [0xF0 + c / 0x40000, 0x80 + c / 0x1000 % 0x40, 0x80 + c / 0x40 % 0x40, 0x80 + c % 0x40]

/-- A byte list is valid UTF-8 exactly when it is the concatenation of the
UTF-8 encodings of a list of Unicode scalar values.  This is the
definition of UTF-8 validity, independent of the decoder. -/
def ValidUtf8 (bs : Bytes) : Prop :=
  ∃ cs : List Nat, (∀ c ∈ cs, IsScalarValue c = true) ∧ bs = (cs.map utf8EncodeChar).flatten

/-- Marker for a failed UTF-8 decode (Rust `std::string::FromUtf8Error`,
with its payload abstracted away: the library never inspects it). -/
structure FromUtf8Error where
  mk' ::
deriving DecidableEq

/-- Model of Rust `String::from_utf8`: decode bytes into a `String`
(scalar values re-packed as Lean characters) or report a decode error. -/
def string_from_utf8 (bs : Bytes) : Except FromUtf8Error String :=
  match utf8DecodeCore bs with
  | some cs => Except.ok (String.mk (cs.map Char.ofNat))
  | none => Except.error FromUtf8Error.mk'

/-- Model of `impl From<Result<String, FromUtf8Error>> for IoStream`
(src/lib.rs lines 22-29). -/
def IoStream.of_result : Except FromUtf8Error String → IoStream
  | Except.ok string => IoStream.text string
  | Except.error _ => IoStream.invalidUtf8

/-- The composition `String::from_utf8(bytes).into()` used at
src/lib.rs lines 87-88. -/
def io_stream_of_bytes (bs : Bytes) : IoStream :=
  IoStream.of_result (string_from_utf8 bs)

/-- An OS-level I/O error (Rust `std::io::Error`), abstracted to its
rendered message. -/
structure IoError where
  message : String
deriving DecidableEq

/-- Rendering of an OS error: its own message, nothing more. -/
def IoError.display (e : IoError) : String := e.message

/-- A formatting error (source: `enum Error`, src/lib.rs lines 31-54). -/
inductive Error where
  /-- The tool is missing from the Rust toolchain. -/
  | toolMissing (name : String) : Error
  /-- The tool terminated with a failure exit code. -/
  | toolExecutionError (code : Int) (stdout : IoStream) (stderr : IoStream) : Error
  /-- An I/O error occurred. -/
  | ioError (e : IoError) : Error
  /-- No result code was obtained (process terminated by a signal). -/
  | noResultCode : Error
deriving DecidableEq

/-- Constructor index of an `Error` value: which of the enum variants
it was built with. -/
def Error.ctorIdx : Error → Nat
  | Error.toolMissing _ => 0
  | Error.toolExecutionError _ _ _ => 1
  | Error.ioError _ => 2
  | Error.noResultCode => 3

/-- Constructor index of an `IoStream` value. -/
def IoStream.ctorIdx : IoStream → Nat
  | IoStream.invalidUtf8 => 0
  | IoStream.text _ => 1

/-- Model of the `thiserror`-derived `Display` for `Error`
(src/lib.rs lines 32-53): the `#[error(...)]` format strings, with
`#[error(transparent)]` on `IoError` delegating to the wrapped error. -/
def Error.display : Error → String
  | Error.toolMissing name =>
      "Formatting tool \x27" ++ name ++ "\x27 not available on toolchain."
  | Error.toolExecutionError code stdout stderr =>
      "Error executing formatting tool (code " ++ toString code ++ ").\nStdout:\n" ++
        stdout.display ++ "\nStderr:" ++ stderr.display
  | Error.ioError e => e.display
  | Error.noResultCode => "No result code received from formatting tool process."

/-- Model of the `#[from]` conversion `std::io::Error -> Error`
(src/lib.rs line 49). -/
def Error.of_io_error (e : IoError) : Error := Error.ioError e

/-- Configuration of one standard stream of a child process
(Rust `std::process::Stdio`). -/
inductive Stdio where
  | piped : Stdio
  | inherit : Stdio
  | null : Stdio
deriving DecidableEq

/-- A child-process invocation being built (Rust `std::process::Command`):
program, arguments, and the configuration of the three standard streams
(`none` = not configured, i.e. the Rust default). -/
structure Command where
  program : String
  args : List String
  stdin_cfg : Option Stdio
  stdout_cfg : Option Stdio
  stderr_cfg : Option Stdio
deriving DecidableEq

/-- `Command::new(program)`: no args, no stream configuration. -/
def Command.new (program : String) : Command :=
  { program := program, args := [], stdin_cfg := none, stdout_cfg := none, stderr_cfg := none }

/-- `Command::arg`: append one argument. -/
def Command.arg (c : Command) (a : String) : Command :=
  { c with args := c.args ++ [a] }

/-- `Command::stdin`: configure the standard input of the child. -/
def Command.stdin (c : Command) (s : Stdio) : Command :=
  { c with stdin_cfg := some s }

/-- `Command::stdout`: configure the standard output of the child. -/
def Command.stdout (c : Command) (s : Stdio) : Command :=
  { c with stdout_cfg := some s }

/-- `Command::stderr`: configure the standard error of the child. -/
def Command.stderr (c : Command) (s : Stdio) : Command :=
  { c with stderr_cfg := some s }

/-- The command built at src/lib.rs lines 75-79:
`Command::new(&rustfmt).arg(path).stdin(piped).stdout(piped).stderr(piped)`. -/
def mkCommand (rustfmt : String) (path : String) : Command :=
  ((((Command.new rustfmt).arg path).stdin Stdio.piped).stdout Stdio.piped).stderr
    Stdio.piped

/-- Exit status of a terminated process (Rust `std::process::ExitStatus`):
`code` is the numeric exit code, or `none` when the process terminated
without one (e.g. killed by a signal). -/
structure ExitStatus where
  code : Option Int
deriving DecidableEq

/-- Captured result of a terminated process (Rust `std::process::Output`). -/
structure Output where
  status : ExitStatus
  stdout : Bytes
  stderr : Bytes
deriving DecidableEq

/-- Oracle for the OS effects of one `format_file` call:
the toolchain lookup (`toolchain_find::find_installed_component`), the
outcome of spawning a given command, and the outcome of waiting for the
spawned child with captured output. -/
structure OS where
  find_installed_component : String → Option String
  spawn : Command → Except IoError Unit
  wait_with_output : Except IoError Output

/-- One observable OS interaction performed by `format_file`. -/
inductive Event where
  /-- The toolchain was searched for a component of this name. -/
  | find (name : String) : Event
  /-- A child process was spawned (or spawning was attempted) with this
  command. -/
  | spawned (cmd : Command) : Event
  /-- Data was written to the standard input of the child. -/
  | stdinWrite (data : Bytes) : Event
  /-- The invocation blocked until the child terminated. -/
  | waited : Event
deriving DecidableEq

/-- The fixed tool name (src/lib.rs line 71). -/
def TOOL_NAME : String := "rustfmt"

/-- Embedding of `format_file` (src/lib.rs lines 70-93): given the OS
oracle and the target path, the returned `Result` together with the trace
of OS interactions performed. -/
def format_file (os : OS) (path : String) : Except Error Unit × List Event :=
  match os.find_installed_component TOOL_NAME with
  | none => (Except.error (Error.toolMissing TOOL_NAME), [Event.find TOOL_NAME])
  | some rustfmt =>
    let cmd := mkCommand rustfmt path
    match os.spawn cmd with
    | Except.error e =>
        (Except.error (Error.ioError e), [Event.find TOOL_NAME, Event.spawned cmd])
    | Except.ok _ =>
      match os.wait_with_output with
      | Except.error e =>
          (Except.error (Error.ioError e),
           [Event.find TOOL_NAME, Event.spawned cmd, Event.waited])
      | Except.ok out =>
        match out.status.code with
        | none =>
            (Except.error Error.noResultCode,
             [Event.find TOOL_NAME, Event.spawned cmd, Event.waited])
        | some code =>
          if code ≠ 0 then
            (Except.error
              (Error.toolExecutionError code (io_stream_of_bytes out.stdout)
                (io_stream_of_bytes out.stderr)),
             [Event.find TOOL_NAME, Event.spawned cmd, Event.waited])
          else
            (Except.ok (), [Event.find TOOL_NAME, Event.spawned cmd, Event.waited])

/-- Oracle for a run in which the tool resolves, spawning and waiting
succeed, and the tool exits with code 2 after writing `error: syntax`
to its standard error. -/
def osExit2 : OS where
  find_installed_component := fun _ => some "/usr/bin/rustfmt"
  spawn := fun _ => Except.ok ()
  wait_with_output :=
    Except.ok
      { status := { code := some 2 }, stdout := [],
        stderr := [101, 114, 114, 111, 114, 58, 32, 115, 121, 110, 116, 97, 120] }

/-- Oracle for a run in which the toolchain has no `rustfmt`. -/
def osNoTool : OS where
  find_installed_component := fun _ => none
  spawn := fun _ => Except.ok ()
  wait_with_output :=
    Except.ok { status := { code := some 0 }, stdout := [], stderr := [] }

/-- A second oracle without `rustfmt` on the toolchain. -/
def osNoTool2 : OS where
  find_installed_component := fun _ => none
  spawn := fun _ => Except.error { message := "unreachable" }
  wait_with_output := Except.error { message := "unreachable" }

/-- Oracle for a run in which the child is killed by a signal: waiting
succeeds but no exit code is available, while both streams carry data. -/
def osSignal : OS where
  find_installed_component := fun _ => some "/usr/bin/rustfmt"
  spawn := fun _ => Except.ok ()
  wait_with_output :=
    Except.ok { status := { code := none }, stdout := [104, 105], stderr := [255] }

/-- Oracle for a run in which spawning the child fails at the OS level. -/
def osSpawnFail : OS where
  find_installed_component := fun _ => some "/usr/bin/rustfmt"
  spawn := fun _ => Except.error { message := "Permission denied" }
  wait_with_output :=
    Except.ok { status := { code := some 0 }, stdout := [], stderr := [] }

/-- Oracle for a successful run: the tool resolves, spawns, and exits
with code 0. -/
def osOk : OS where
  find_installed_component := fun _ => some "/home/user/.cargo/bin/rustfmt"
  spawn := fun _ => Except.ok ()
  wait_with_output :=
    Except.ok { status := { code := some 0 }, stdout := [], stderr := [] }

theorem isUtf8Cont_iff {b : Nat} : isUtf8Cont b = true ↔ 0x80 ≤ b ∧ b < 0xC0 := by
  simp [isUtf8Cont]

theorem utf8Cont3Fst_iff {b b₁ : Nat} :
    utf8Cont3Fst b b₁ = true ↔
      ((b = 0xE0 ∧ 0xA0 ≤ b₁ ∧ b₁ < 0xC0) ∨ (b = 0xED ∧ 0x80 ≤ b₁ ∧ b₁ < 0xA0) ∨
        (b ≠ 0xE0 ∧ b ≠ 0xED ∧ 0x80 ≤ b₁ ∧ b₁ < 0xC0)) := by
  unfold utf8Cont3Fst
  by_cases h0 : b = 0xE0 <;> by_cases h1 : b = 0xED <;> simp [h0, h1, isUtf8Cont]

theorem utf8Cont4Fst_iff {b b₁ : Nat} :
    utf8Cont4Fst b b₁ = true ↔
      ((b = 0xF0 ∧ 0x90 ≤ b₁ ∧ b₁ < 0xC0) ∨ (b = 0xF4 ∧ 0x80 ≤ b₁ ∧ b₁ < 0x90) ∨
        (b ≠ 0xF0 ∧ b ≠ 0xF4 ∧ 0x80 ≤ b₁ ∧ b₁ < 0xC0)) := by
  unfold utf8Cont4Fst
  by_cases h0 : b = 0xF0 <;> by_cases h1 : b = 0xF4 <;> simp [h0, h1, isUtf8Cont]

theorem utf8Cont2_shape {b c : Nat} {bs rest : Bytes}
    (h : utf8Cont2 b bs = some (c, rest)) :
    ∃ b₁, bs = b₁ :: rest ∧ isUtf8Cont b₁ = true ∧ c = 0x40 * (b - 0xC0) + (b₁ - 0x80) := by
  match bs with
  | [] => simp [utf8Cont2] at h
  | b₁ :: tail =>
    simp only [utf8Cont2] at h
    split at h
    next hcond =>
      simp only [Option.some.injEq, Prod.mk.injEq] at h
      exact ⟨b₁, by rw [h.2], hcond, h.1.symm⟩
    next => simp at h

theorem utf8Cont3_shape {b c : Nat} {bs rest : Bytes}
    (h : utf8Cont3 b bs = some (c, rest)) :
    ∃ b₁ b₂, bs = b₁ :: b₂ :: rest ∧ utf8Cont3Fst b b₁ = true ∧ isUtf8Cont b₂ = true ∧
      c = 0x1000 * (b - 0xE0) + 0x40 * (b₁ - 0x80) + (b₂ - 0x80) := by
  match bs with
  | [] => simp [utf8Cont3] at h
  | [_] => simp [utf8Cont3] at h
  | b₁ :: b₂ :: tail =>
    simp only [utf8Cont3] at h
    split at h
    next hcond =>
      simp only [Bool.and_eq_true] at hcond
      simp only [Option.some.injEq, Prod.mk.injEq] at h
      exact ⟨b₁, b₂, by rw [h.2], hcond.1, hcond.2, h.1.symm⟩
    next => simp at h

theorem utf8Cont4_shape {b c : Nat} {bs rest : Bytes}
    (h : utf8Cont4 b bs = some (c, rest)) :
    ∃ b₁ b₂ b₃, bs = b₁ :: b₂ :: b₃ :: rest ∧ utf8Cont4Fst b b₁ = true ∧
      isUtf8Cont b₂ = true ∧ isUtf8Cont b₃ = true ∧
      c = 0x40000 * (b - 0xF0) + 0x1000 * (b₁ - 0x80) + 0x40 * (b₂ - 0x80) + (b₃ - 0x80) := by
  match bs with
  | [] => simp [utf8Cont4] at h
  | [_] => simp [utf8Cont4] at h
  | [_, _] => simp [utf8Cont4] at h
  | b₁ :: b₂ :: b₃ :: tail =>
    simp only [utf8Cont4] at h
    split at h
    next hcond =>
      simp only [Bool.and_eq_true] at hcond
      simp only [Option.some.injEq, Prod.mk.injEq] at h
      exact ⟨b₁, b₂, b₃, by rw [h.2], hcond.1.1, hcond.1.2, hcond.2, h.1.symm⟩
    next => simp at h

theorem utf8DecodeStep_length {b c : Nat} {bs rest : Bytes}
    (h : utf8DecodeStep b bs = some (c, rest)) : rest.length ≤ bs.length := by
  unfold utf8DecodeStep at h
  split at h
  next =>
    simp only [Option.some.injEq, Prod.mk.injEq] at h
    rw [h.2]
  next =>
  split at h
  next => simp at h
  next =>
  split at h
  next =>
    obtain ⟨b₁, hbs, -, -⟩ := utf8Cont2_shape h
    simp [hbs]
  next =>
  split at h
  next =>
    obtain ⟨b₁, b₂, hbs, -, -⟩ := utf8Cont3_shape h
    simp [hbs]
    omega
  next =>
  split at h
  next =>
    obtain ⟨b₁, b₂, b₃, hbs, -, -⟩ := utf8Cont4_shape h
    simp [hbs]
    omega
  next => simp at h

theorem utf8DecodeLoop_congr (f₁ : Nat) :
    ∀ (f₂ : Nat) (bs : Bytes), bs.length ≤ f₁ → bs.length ≤ f₂ →
      utf8DecodeLoop f₁ bs = utf8DecodeLoop f₂ bs := by
  induction f₁ with
  | zero =>
    intro f₂ bs h₁ h₂
    cases bs with
    | nil => cases f₂ <;> rfl
    | cons b tl => simp at h₁
  | succ f ih =>
    intro f₂ bs h₁ h₂
    cases bs with
    | nil => cases f₂ <;> rfl
    | cons b tl =>
      cases f₂ with
      | zero => simp at h₂
      | succ f₂' =>
        simp only [utf8DecodeLoop]
        cases hstep : utf8DecodeStep b tl with
        | none => rfl
        | some pr =>
          obtain ⟨c, rest⟩ := pr
          have hlen := utf8DecodeStep_length hstep
          simp only [List.length_cons] at h₁ h₂
          dsimp only
          rw [ih f₂' rest (by omega) (by omega)]

theorem utf8DecodeCore_nil : utf8DecodeCore [] = some [] := rfl

theorem utf8DecodeCore_cons (b : Nat) (bs : Bytes) :
    utf8DecodeCore (b :: bs) =
      match utf8DecodeStep b bs with
      | none => none
      | some (c, rest) => (utf8DecodeCore rest).map (fun cs => c :: cs) := by
  unfold utf8DecodeCore
  simp only [List.length_cons, utf8DecodeLoop]
  cases hstep : utf8DecodeStep b bs with
  | none => rfl
  | some pr =>
    obtain ⟨c, rest⟩ := pr
    have hlen := utf8DecodeStep_length hstep
    dsimp only
    rw [utf8DecodeLoop_congr bs.length rest.length rest (by omega) (by omega)]

set_option maxRecDepth 8192 in
theorem utf8DecodeStep_sound {b c : Nat} {bs rest : Bytes}
    (h : utf8DecodeStep b bs = some (c, rest)) :
    IsScalarValue c = true ∧ b :: bs = utf8EncodeChar c ++ rest := by
  unfold utf8DecodeStep at h
  split at h
  next h0 =>
    simp only [Option.some.injEq, Prod.mk.injEq] at h
    obtain ⟨hc, hrest⟩ := h
    subst hc; subst hrest
    constructor
    · simp only [IsScalarValue, Bool.or_eq_true, decide_eq_true_eq]
      omega
    · simp [utf8EncodeChar, h0]
  next h0 =>
  split at h
  next => simp at h
  next h1 =>
  split at h
  next h2 =>
    obtain ⟨b₁, hbs, hcont, hc⟩ := utf8Cont2_shape h
    subst hbs; subst hc
    rw [isUtf8Cont_iff] at hcont
    constructor
    · simp only [IsScalarValue, Bool.or_eq_true, decide_eq_true_eq]
      omega
    · have hge : ¬ (0x40 * (b - 0xC0) + (b₁ - 0x80) < 0x80) := by omega
      have hlt : 0x40 * (b - 0xC0) + (b₁ - 0x80) < 0x800 := by omega
      simp only [utf8EncodeChar, if_neg hge, if_pos hlt, List.cons_append, List.nil_append,
        List.cons.injEq]
      refine ⟨by omega, by omega, trivial⟩
  next h2 =>
  split at h
  next h3 =>
    obtain ⟨b₁, b₂, hbs, hfst, hcont, hc⟩ := utf8Cont3_shape h
    subst hbs; subst hc
    rw [utf8Cont3Fst_iff] at hfst
    rw [isUtf8Cont_iff] at hcont
    constructor
    · simp only [IsScalarValue, Bool.or_eq_true, Bool.and_eq_true, decide_eq_true_eq]
      omega
    · have hge : ¬ (0x1000 * (b - 0xE0) + 0x40 * (b₁ - 0x80) + (b₂ - 0x80) < 0x80) := by omega
      have hge2 : ¬ (0x1000 * (b - 0xE0) + 0x40 * (b₁ - 0x80) + (b₂ - 0x80) < 0x800) := by omega
      have hlt : 0x1000 * (b - 0xE0) + 0x40 * (b₁ - 0x80) + (b₂ - 0x80) < 0x10000 := by omega
      simp only [utf8EncodeChar, if_neg hge, if_neg hge2, if_pos hlt, List.cons_append,
        List.nil_append, List.cons.injEq]
      refine ⟨by omega, by omega, by omega, trivial⟩
  next h3 =>
  split at h
  next h4 =>
    obtain ⟨b₁, b₂, b₃, hbs, hfst, hcont, hcont3, hc⟩ := utf8Cont4_shape h
    subst hbs; subst hc
    rw [utf8Cont4Fst_iff] at hfst
    rw [isUtf8Cont_iff] at hcont
    rw [isUtf8Cont_iff] at hcont3
    constructor
    · simp only [IsScalarValue, Bool.or_eq_true, Bool.and_eq_true, decide_eq_true_eq]
      omega
    · have hge : ¬ (0x40000 * (b - 0xF0) + 0x1000 * (b₁ - 0x80) + 0x40 * (b₂ - 0x80) +
          (b₃ - 0x80) < 0x80) := by omega
      have hge2 : ¬ (0x40000 * (b - 0xF0) + 0x1000 * (b₁ - 0x80) + 0x40 * (b₂ - 0x80) +
          (b₃ - 0x80) < 0x800) := by omega
      have hge3 : ¬ (0x40000 * (b - 0xF0) + 0x1000 * (b₁ - 0x80) + 0x40 * (b₂ - 0x80) +
          (b₃ - 0x80) < 0x10000) := by omega
      simp only [utf8EncodeChar, if_neg hge, if_neg hge2, if_neg hge3, List.cons_append,
        List.nil_append, List.cons.injEq]
      refine ⟨by omega, by omega, by omega, by omega, trivial⟩
  next => simp at h

theorem utf8DecodeLoop_sound (fuel : Nat) :
    ∀ (bs : Bytes) (cs : List Nat), utf8DecodeLoop fuel bs = some cs →
      (∀ c ∈ cs, IsScalarValue c = true) ∧ bs = (cs.map utf8EncodeChar).flatten := by
  induction fuel with
  | zero =>
    intro bs cs h
    cases bs with
    | nil =>
      simp only [utf8DecodeLoop, Option.some.injEq] at h
      subst h
      simp
    | cons b tl => simp [utf8DecodeLoop] at h
  | succ f ih =>
    intro bs cs h
    cases bs with
    | nil =>
      simp only [utf8DecodeLoop, Option.some.injEq] at h
      subst h
      simp
    | cons b tl =>
      simp only [utf8DecodeLoop] at h
      cases hstep : utf8DecodeStep b tl with
      | none => rw [hstep] at h; simp at h
      | some pr =>
        obtain ⟨c, rest⟩ := pr
        rw [hstep] at h
        dsimp only at h
        rw [Option.map_eq_some'] at h
        obtain ⟨cs', hcs', rfl⟩ := h
        obtain ⟨hsc, henc⟩ := ih rest cs' hcs'
        obtain ⟨hscc, hbc⟩ := utf8DecodeStep_sound hstep
        constructor
        · intro x hx
          rcases List.mem_cons.mp hx with hx | hx
          · rw [hx]; exact hscc
          · exact hsc x hx
        · simp only [List.map_cons, List.flatten_cons]
          rw [← henc]
          exact hbc

set_option maxRecDepth 8192 in
theorem utf8DecodeStep_encode {c : Nat} (hsc : IsScalarValue c = true) (rest : Bytes) :
    ∃ b ebs, utf8EncodeChar c = b :: ebs ∧ utf8DecodeStep b (ebs ++ rest) = some (c, rest) := by
  simp only [IsScalarValue, Bool.or_eq_true, Bool.and_eq_true, decide_eq_true_eq] at hsc
  by_cases h1 : c < 0x80
  · refine ⟨c, [], by simp [utf8EncodeChar, h1], ?_⟩
    simp [utf8DecodeStep, h1]
  by_cases h2 : c < 0x800
  · refine ⟨0xC0 + c / 0x40, [0x80 + c % 0x40], by simp [utf8EncodeChar, h1, h2], ?_⟩
    have hb1 : ¬ (0xC0 + c / 0x40 < 0x80) := by omega
    have hb2 : ¬ (0xC0 + c / 0x40 < 0xC2) := by omega
    have hb3 : 0xC0 + c / 0x40 < 0xE0 := by omega
    have hcont : isUtf8Cont (0x80 + c % 0x40) = true := by
      rw [isUtf8Cont_iff]; omega
    simp only [utf8DecodeStep, if_neg hb1, if_neg hb2, if_pos hb3, List.cons_append,
      List.nil_append, utf8Cont2, hcont, if_true, Option.some.injEq, Prod.mk.injEq]
    exact ⟨by omega, trivial⟩
  by_cases h3 : c < 0x10000
  · refine ⟨0xE0 + c / 0x1000, [0x80 + c / 0x40 % 0x40, 0x80 + c % 0x40],
      by simp [utf8EncodeChar, h1, h2, h3], ?_⟩
    have hb1 : ¬ (0xE0 + c / 0x1000 < 0x80) := by omega
    have hb2 : ¬ (0xE0 + c / 0x1000 < 0xC2) := by omega
    have hb3 : ¬ (0xE0 + c / 0x1000 < 0xE0) := by omega
    have hb4 : 0xE0 + c / 0x1000 < 0xF0 := by omega
    have hfst : utf8Cont3Fst (0xE0 + c / 0x1000) (0x80 + c / 0x40 % 0x40) = true := by
      rw [utf8Cont3Fst_iff]; omega
    have hcont : isUtf8Cont (0x80 + c % 0x40) = true := by
      rw [isUtf8Cont_iff]; omega
    simp only [utf8DecodeStep, if_neg hb1, if_neg hb2, if_neg hb3, if_pos hb4,
      List.cons_append, List.nil_append, utf8Cont3, hfst, hcont, Bool.and_self, if_true,
      Option.some.injEq, Prod.mk.injEq]
    exact ⟨by omega, trivial⟩
  · have h4 : c < 0x110000 := by omega
    refine ⟨0xF0 + c / 0x40000,
      [0x80 + c / 0x1000 % 0x40, 0x80 + c / 0x40 % 0x40, 0x80 + c % 0x40],
      by simp [utf8EncodeChar, h1, h2, h3], ?_⟩
    have hb1 : ¬ (0xF0 + c / 0x40000 < 0x80) := by omega
    have hb2 : ¬ (0xF0 + c / 0x40000 < 0xC2) := by omega
    have hb3 : ¬ (0xF0 + c / 0x40000 < 0xE0) := by omega
    have hb4 : ¬ (0xF0 + c / 0x40000 < 0xF0) := by omega
    have hb5 : 0xF0 + c / 0x40000 < 0xF5 := by omega
    have hfst : utf8Cont4Fst (0xF0 + c / 0x40000) (0x80 + c / 0x1000 % 0x40) = true := by
      rw [utf8Cont4Fst_iff]; omega
    have hcont2 : isUtf8Cont (0x80 + c / 0x40 % 0x40) = true := by
      rw [isUtf8Cont_iff]; omega
    have hcont3 : isUtf8Cont (0x80 + c % 0x40) = true := by
      rw [isUtf8Cont_iff]; omega
    simp only [utf8DecodeStep, if_neg hb1, if_neg hb2, if_neg hb3, if_neg hb4, if_pos hb5,
      List.cons_append, List.nil_append, utf8Cont4, hfst, hcont2, hcont3, Bool.and_self,
      if_true, Option.some.injEq, Prod.mk.injEq]
    exact ⟨by omega, trivial⟩

theorem utf8DecodeCore_encode_append {c : Nat} (hsc : IsScalarValue c = true) (rest : Bytes) :
    utf8DecodeCore (utf8EncodeChar c ++ rest) =
      (utf8DecodeCore rest).map (fun cs => c :: cs) := by
  obtain ⟨b, ebs, henc, hstep⟩ := utf8DecodeStep_encode hsc rest
  rw [henc, List.cons_append, utf8DecodeCore_cons, hstep]

theorem utf8DecodeCore_complete (cs : List Nat) (hsc : ∀ c ∈ cs, IsScalarValue c = true) :
    utf8DecodeCore ((cs.map utf8EncodeChar).flatten) = some cs := by
  induction cs with
  | nil => simp [utf8DecodeCore, utf8DecodeLoop]
  | cons c tl ih =>
    simp only [List.map_cons, List.flatten_cons]
    rw [utf8DecodeCore_encode_append (hsc c (by simp)) _,
      ih (fun x hx => hsc x (by simp [hx]))]
    rfl

theorem utf8DecodeCore_sound {bs : Bytes} {cs : List Nat} (h : utf8DecodeCore bs = some cs) :
    (∀ c ∈ cs, IsScalarValue c = true) ∧ bs = (cs.map utf8EncodeChar).flatten :=
  utf8DecodeLoop_sound bs.length bs cs h

theorem validUtf8_iff_isSome (bs : Bytes) :
    ValidUtf8 bs ↔ (utf8DecodeCore bs).isSome = true := by
  constructor
  · rintro ⟨cs, hsc, rfl⟩
    rw [utf8DecodeCore_complete cs hsc]
    rfl
  · intro h
    cases hd : utf8DecodeCore bs with
    | none => rw [hd] at h; simp at h
    | some cs =>
      obtain ⟨hsc, henc⟩ := utf8DecodeCore_sound hd
      exact ⟨cs, hsc, henc⟩

theorem format_file_trace_head (os : OS) (path : String) :
    (format_file os path).2.head? = some (Event.find TOOL_NAME) := by
  unfold format_file
  cases os.find_installed_component TOOL_NAME with
  | none => rfl
  | some p =>
    dsimp only
    cases os.spawn (mkCommand p path) with
    | error e => rfl
    | ok u =>
      dsimp only
      cases os.wait_with_output with
      | error e => rfl
      | ok out =>
        dsimp only
        cases out.status.code with
        | none => rfl
        | some code =>
          by_cases h : code ≠ 0 <;> simp [h]

/-- C1: when the locator resolves the tool and both spawning and waiting
succeed with a numeric exit code, `format_file` returns success for exit
code zero and otherwise the tool-execution error carrying exactly that
code and both captured streams converted from bytes. -/
theorem format_file_exit_classification (os : OS) (path p : String) (out : Output)
    (code : Int)
    (hfind : os.find_installed_component TOOL_NAME = some p)
    (hspawn : os.spawn (mkCommand p path) = Except.ok ())
    (hwait : os.wait_with_output = Except.ok out)
    (hcode : out.status.code = some code) :
    (format_file os path).1 =
      if code = 0 then Except.ok ()
      else
        Except.error (Error.toolExecutionError code (io_stream_of_bytes out.stdout)
          (io_stream_of_bytes out.stderr)) := by
  unfold format_file
  rw [hfind]
  dsimp only
  rw [hspawn, hwait]
  dsimp only
  rw [hcode]
  dsimp only
  by_cases h : code = 0 <;> simp [h]

/-- C2: when the locator returns no path for the fixed tool name,
`format_file` fails immediately with the tool-missing error carrying that
name, and the interaction trace contains no spawn. -/
theorem format_file_tool_missing (os : OS) (path : String)
    (h : os.find_installed_component TOOL_NAME = none) :
    (format_file os path).1 = Except.error (Error.toolMissing TOOL_NAME) ∧
    ∀ c : Command, Event.spawned c ∉ (format_file os path).2 := by
  unfold format_file
  rw [h]
  exact ⟨rfl, fun c hc => by simp at hc⟩

/-- C4: when waiting succeeds but the process terminated without a numeric
exit code, `format_file` fails with the data-free `noResultCode` error,
whatever the captured streams were. -/
theorem format_file_no_result_code (os : OS) (path p : String) (out : Output)
    (hfind : os.find_installed_component TOOL_NAME = some p)
    (hspawn : os.spawn (mkCommand p path) = Except.ok ())
    (hwait : os.wait_with_output = Except.ok out)
    (hcode : out.status.code = none) :
    (format_file os path).1 = Except.error Error.noResultCode := by
  unfold format_file
  rw [hfind]
  dsimp only
  rw [hspawn, hwait]
  dsimp only
  rw [hcode]

/-- C5: `format_file` returns the I/O-error kind wrapping `e` exactly when
either spawning failed with `e`, or spawning succeeded and waiting failed
with `e`. -/
theorem format_file_io_error_iff (os : OS) (path : String) (e : IoError) :
    (format_file os path).1 = Except.error (Error.ioError e) ↔
      ∃ p, os.find_installed_component TOOL_NAME = some p ∧
        (os.spawn (mkCommand p path) = Except.error e ∨
          (os.spawn (mkCommand p path) = Except.ok () ∧
            os.wait_with_output = Except.error e)) := by
  unfold format_file
  cases hf : os.find_installed_component TOOL_NAME with
  | none => simp [hf]
  | some p =>
    dsimp only
    cases hs : os.spawn (mkCommand p path) with
    | error e₁ => simp [hs]
    | ok u =>
      dsimp only
      cases hw : os.wait_with_output with
      | error e₁ => simp [hs]
      | ok out =>
        dsimp only
        cases hc : out.status.code with
        | none => simp [hs, hw]
        | some code =>
          by_cases h0 : code ≠ 0 <;> simp [h0, hs, hw]

/-- C6: when the tool resolves to `p`, the (unique) spawned command is
`p` with the target path as sole argument and all three standard streams
piped, and nothing is ever written to the standard input of the child. -/
theorem format_file_command_shape (os : OS) (path p : String)
    (hfind : os.find_installed_component TOOL_NAME = some p) :
    (mkCommand p path).program = p ∧
    (mkCommand p path).args = [path] ∧
    (mkCommand p path).stdin_cfg = some Stdio.piped ∧
    (mkCommand p path).stdout_cfg = some Stdio.piped ∧
    (mkCommand p path).stderr_cfg = some Stdio.piped ∧
    Event.spawned (mkCommand p path) ∈ (format_file os path).2 ∧
    (∀ c : Command, Event.spawned c ∈ (format_file os path).2 → c = mkCommand p path) ∧
    (∀ d : Bytes, Event.stdinWrite d ∉ (format_file os path).2) := by
  refine ⟨rfl, rfl, rfl, rfl, rfl, ?_, ?_, ?_⟩
  all_goals
    unfold format_file
    rw [hfind]
    dsimp only
    cases os.spawn (mkCommand p path) with
    | error e => simp
    | ok u =>
      dsimp only
      cases os.wait_with_output with
      | error e => simp
      | ok out =>
        dsimp only
        cases out.status.code with
        | none => simp
        | some code =>
          by_cases h0 : code ≠ 0 <;> simp [h0]

/-- C8: the fixed tool name is exactly "rustfmt": it is the first thing
asked of the locator on every call, and the name carried by the
tool-missing error when resolution fails. -/
theorem format_file_fixed_tool_name (os : OS) (path : String) :
    TOOL_NAME = "rustfmt" ∧
    (format_file os path).2.head? = some (Event.find "rustfmt") ∧
    (os.find_installed_component "rustfmt" = none →
      (format_file os path).1 = Except.error (Error.toolMissing "rustfmt")) := by
  refine ⟨rfl, format_file_trace_head os path, fun h => ?_⟩
  unfold format_file
  simp only [TOOL_NAME]
  rw [h]

/-- C9: rendering an `IoStream` is total and deterministic — the
`invalidUtf8` variant renders as the literal `(Invalid UTF-8)` and the
`text` variant renders as exactly its contained string. -/
theorem io_stream_display_spec (s : String) :
    IoStream.display IoStream.invalidUtf8 = "(Invalid UTF-8)" ∧
    IoStream.display (IoStream.text s) = s :=
  ⟨rfl, rfl⟩

/-- C10: the I/O-error kind is transparent — its rendered message equals the
rendered message of the wrapped OS error, and any OS error converts into
the error type via this variant. -/
theorem io_error_transparent (e : IoError) :
    Error.display (Error.ioError e) = IoError.display e ∧
    Error.of_io_error e = Error.ioError e :=
  ⟨rfl, rfl⟩

/-- C7 counterexample: the error enum does not have exactly three
variants — `noResultCode` is a fourth variant, distinct (by constructor)
from values of the three other variants. -/
theorem error_enum_fourth_variant :
    Error.ctorIdx Error.noResultCode = 3 ∧
    Error.ctorIdx (Error.toolMissing "rustfmt") ≠ Error.ctorIdx Error.noResultCode ∧
    Error.ctorIdx (Error.toolExecutionError 0 IoStream.invalidUtf8 IoStream.invalidUtf8) ≠
      Error.ctorIdx Error.noResultCode ∧
    Error.ctorIdx (Error.ioError { message := "" }) ≠ Error.ctorIdx Error.noResultCode := by
  refine ⟨rfl, ?_, ?_, ?_⟩ <;> decide

/-- C7 (amended): the error enum has exactly four variants and the stream
wrapper has exactly two: every value falls under one of that many
constructors, and each constructor is inhabited. -/
theorem error_enum_variant_count :
    (∀ e : Error, Error.ctorIdx e < 4) ∧
    ((∃ e : Error, Error.ctorIdx e = 0) ∧ (∃ e : Error, Error.ctorIdx e = 1) ∧
      (∃ e : Error, Error.ctorIdx e = 2) ∧ (∃ e : Error, Error.ctorIdx e = 3)) ∧
    (∀ s : IoStream, IoStream.ctorIdx s < 2) ∧
    ((∃ s : IoStream, IoStream.ctorIdx s = 0) ∧ (∃ s : IoStream, IoStream.ctorIdx s = 1)) := by
  refine ⟨fun e => ?_, ⟨⟨Error.toolMissing "", rfl⟩,
      ⟨Error.toolExecutionError 0 IoStream.invalidUtf8 IoStream.invalidUtf8, rfl⟩,
      ⟨Error.ioError { message := "" }, rfl⟩, ⟨Error.noResultCode, rfl⟩⟩,
    fun s => ?_, ⟨⟨IoStream.invalidUtf8, rfl⟩, ⟨IoStream.text "", rfl⟩⟩⟩
  · cases e <;> simp [Error.ctorIdx]
  · cases s <;> simp [IoStream.ctorIdx]

/-- C3: conversion of captured bytes to an `IoStream` is total — invalid
UTF-8 input yields the `invalidUtf8` marker, the encoding of any list of
scalar values yields the `text` variant holding exactly the decoded
string, and every result is exactly one of the two variants. -/
theorem io_stream_of_bytes_total (bs : Bytes) :
    (¬ ValidUtf8 bs → io_stream_of_bytes bs = IoStream.invalidUtf8) ∧
    (∀ cs : List Nat, (∀ c ∈ cs, IsScalarValue c = true) →
      bs = (cs.map utf8EncodeChar).flatten →
      io_stream_of_bytes bs = IoStream.text (String.mk (cs.map Char.ofNat))) ∧
    Xor' (∃ s, io_stream_of_bytes bs = IoStream.text s)
      (io_stream_of_bytes bs = IoStream.invalidUtf8) := by
  refine ⟨fun h => ?_, fun cs hsc henc => ?_, ?_⟩
  · cases hd : utf8DecodeCore bs with
    | none =>
      unfold io_stream_of_bytes string_from_utf8
      rw [hd]
      rfl
    | some cs =>
      exact absurd ((validUtf8_iff_isSome bs).mpr (by simp [hd])) h
  · subst henc
    unfold io_stream_of_bytes string_from_utf8
    rw [utf8DecodeCore_complete cs hsc]
    rfl
  · cases hd : utf8DecodeCore bs with
    | none =>
      right
      constructor
      · unfold io_stream_of_bytes string_from_utf8
        rw [hd]
        rfl
      · rintro ⟨s, hs⟩
        unfold io_stream_of_bytes string_from_utf8 at hs
        rw [hd] at hs
        exact absurd hs (by simp [IoStream.of_result])
    | some cs =>
      left
      constructor
      · refine ⟨String.mk (cs.map Char.ofNat), ?_⟩
        unfold io_stream_of_bytes string_from_utf8
        rw [hd]
        rfl
      · intro hinv
        unfold io_stream_of_bytes string_from_utf8 at hinv
        rw [hd] at hinv
        exact absurd hinv (by simp [IoStream.of_result])

/-- C1 witness: a tool that exits with code 2 writing `error: syntax` to
its error stream yields the tool-execution error with code 2 and a stderr
stream equal to that text. -/
theorem format_file_exit_classification_witness :
    (format_file osExit2 "main.rs").1 =
      Except.error (Error.toolExecutionError 2 (IoStream.text "")
        (IoStream.text "error: syntax")) := by
  have h := format_file_exit_classification osExit2 "main.rs" "/usr/bin/rustfmt"
    { status := { code := some 2 }, stdout := [],
      stderr := [101, 114, 114, 111, 114, 58, 32, 115, 121, 110, 116, 97, 120] } 2
    rfl rfl rfl rfl
  rw [h, if_neg (by decide)]
  have h1 : io_stream_of_bytes ([] : Bytes) = IoStream.text "" := by decide
  have h2 : io_stream_of_bytes [101, 114, 114, 111, 114, 58, 32, 115, 121, 110, 116, 97, 120] =
      IoStream.text "error: syntax" := by decide
  dsimp only
  rw [h1, h2]

/-- C2 witness: with no `rustfmt` on the toolchain, the call fails with
the tool-missing error. -/
theorem format_file_tool_missing_witness :
    (format_file osNoTool "main.rs").1 = Except.error (Error.toolMissing "rustfmt") :=
  (format_file_tool_missing osNoTool "main.rs" rfl).1

/-- C3 witness: the bytes of `hi` decode to the text stream `hi`. -/
theorem io_stream_of_bytes_total_witness :
    io_stream_of_bytes [104, 105] = IoStream.text "hi" := by
  have h := (io_stream_of_bytes_total [104, 105]).2.1 [104, 105] (by decide) (by decide)
  rw [h]
  decide

/-- C4 witness: a signal-killed child (no exit code) yields the bare
`noResultCode` error even though both streams carried data. -/
theorem format_file_no_result_code_witness :
    (format_file osSignal "main.rs").1 = Except.error Error.noResultCode :=
  format_file_no_result_code osSignal "main.rs" "/usr/bin/rustfmt"
    { status := { code := none }, stdout := [104, 105], stderr := [255] } rfl rfl rfl rfl

/-- C5 witness: an OS-level spawn failure surfaces as the I/O error
wrapping that OS error. -/
theorem format_file_io_error_iff_witness :
    (format_file osSpawnFail "main.rs").1 =
      Except.error (Error.ioError { message := "Permission denied" }) :=
  (format_file_io_error_iff osSpawnFail "main.rs" { message := "Permission denied" }).mpr
    ⟨"/usr/bin/rustfmt", rfl, Or.inl rfl⟩

/-- C6 witness: on a successful run the spawned command carries the target
path as sole argument. -/
theorem format_file_command_shape_witness :
    (mkCommand "/home/user/.cargo/bin/rustfmt" "lib.rs").args = ["lib.rs"] ∧
    Event.spawned (mkCommand "/home/user/.cargo/bin/rustfmt" "lib.rs") ∈
      (format_file osOk "lib.rs").2 := by
  have h := format_file_command_shape osOk "lib.rs" "/home/user/.cargo/bin/rustfmt" rfl
  exact ⟨h.2.1, h.2.2.2.2.2.1⟩

/-- C8 witness: with an empty toolchain the error carries exactly the name
`rustfmt`. -/
theorem format_file_fixed_tool_name_witness :
    (format_file osNoTool2 "lib.rs").1 = Except.error (Error.toolMissing "rustfmt") :=
  (format_file_fixed_tool_name osNoTool2 "lib.rs").2.2 rfl
